import Mathlib

/-!
Verification of the OpenUI Agent Session Engine (server side).

This file gives a shallow embedding, in Lean 4, of the session-engine core of
the repository: the metrics extractor (`parseMetrics`, `scanBufferForMetrics`),
the per-chunk output handler installed by `createSession`, the restart and
state routes of `routes/api.ts`, the restore path (`restoreSessions`) and the
workspace-provisioning fallback of `createSession`
(`services/sessionManager.ts`).  JavaScript runtime services that the code
calls but that are external to it (JSON.parse, parseFloat, the pty spawn, git
invocations, the on-disk buffer store) are passed in as explicit parameters,
so every definition stays executable.  Machine times (Date.now) are naturals
(milliseconds); JS numbers that the engine stores are rationals.
-/

namespace OpenUI

/-! ## JavaScript values

The engine manipulates values produced by `JSON.parse` without runtime type
enforcement, so a parsed field can be any JSON value.  `JVal.jcomp` stands for
a composite value (array or object): the engine never inspects the contents of
a composite field, it only ever observes that such a value is truthy. -/

inductive JVal where
  | jnull
  | jbool (b : Bool)
  | jnum (q : ℚ)
  | jstr (s : String)
  | jcomp
deriving DecidableEq, Repr

/-- JS falsiness of a defined value: `null`, `false`, `0` and `""` are falsy;
arrays and objects are always truthy.  (`NaN` cannot come out of JSON.parse.) -/
def JVal.falsy : JVal → Bool
  | .jnull => true
  | .jbool b => !b
  | .jnum q => q == 0
  | .jstr s => s == ""
  | .jcomp => false

/-- Falsiness of a possibly-undefined value (`none` = JS `undefined`). -/
def optFalsy : Option JVal → Bool
  | none => true
  | some v => v.falsy

/-- JS `x || d` for a possibly-undefined `x`. -/
def jsOr (v : Option JVal) (d : JVal) : JVal :=
  match v with
  | some x => if x.falsy then d else x
  | none => d

/-- The abbreviated-key projection of a value returned by `JSON.parse`: the
engine only ever reads the keys `m c la lr cp it ot s`.  A key that is absent
(or a parse result that is not an object) is `none`. -/
structure JObj where
  m : Option JVal
  c : Option JVal
  la : Option JVal
  lr : Option JVal
  cp : Option JVal
  it : Option JVal
  ot : Option JVal
  s : Option JVal
deriving DecidableEq, Repr

/-- The JavaScript runtime services the metrics extractor calls.
`jparse s = none` models `JSON.parse` throwing on `s`; `parseFloatOf v = none`
models `parseFloat` returning `NaN` on the stringification of `v`
(`none` = `undefined`). -/
structure JSEnv where
  jparse : String → Option JObj
  parseFloatOf : Option JVal → Option ℚ

/-! ## Character scanning (the regex pipeline of `parseMetrics`) -/

/-- Characters matched by the regex class `[0-9;]` inside an ANSI SGR code. -/
def isAnsiParam (c : Char) : Bool := c.isDigit || c == ';'

/-- One attempt of the regex `\x1b\[[0-9;]*m` at the head of the text:
on success, return the text after the matched escape sequence. -/
def matchAnsiAt : List Char → Option (List Char)
  | '\x1b' :: '[' :: cs =>
    match cs.dropWhile isAnsiParam with
    | 'm' :: rest => some rest
    | _ => none
  | _ => none

/-- The scan of `data.replace(/\x1b\[[0-9;]*m/g, '')`: left to right, skipping
over each match.  Every step consumes at least one character, so the scan is
run with the text's length as fuel (structural recursion keeps the definition
kernel-evaluable). -/
def stripAnsiGo : Nat → List Char → List Char
  | 0, _ => []
  | _ + 1, [] => []
  | fuel + 1, c :: cs =>
    match matchAnsiAt (c :: cs) with
    | some rest => stripAnsiGo fuel rest
    | none => c :: stripAnsiGo fuel cs

/-- Embedding of `data.replace(/\x1b\[[0-9;]*m/g, '')`: global removal of ANSI SGR codes. -/
def stripAnsi (cs : List Char) : List Char := stripAnsiGo cs.length cs

/-- Characters of the JS regex class `\s` (the ECMAScript WhiteSpace and
LineTerminator sets). -/
def isJsWs (c : Char) : Bool :=
  let n := c.toNat
  n == 0x20 || (Nat.ble 0x9 n && Nat.ble n 0xd) || n == 0xa0 || n == 0x1680 ||
    (Nat.ble 0x2000 n && Nat.ble n 0x200a) || n == 0x2028 || n == 0x2029 ||
    n == 0x202f || n == 0x205f || n == 0x3000 || n == 0xfeff

/-- The scan of `cleanData.replace(/\s+/g, ' ')`, fueled like `stripAnsiGo`. -/
def normalizeWsGo : Nat → List Char → List Char
  | 0, _ => []
  | _ + 1, [] => []
  | fuel + 1, c :: cs =>
    if isJsWs c then ' ' :: normalizeWsGo fuel (cs.dropWhile isJsWs)
    else c :: normalizeWsGo fuel cs

/-- Embedding of `cleanData.replace(/\s+/g, ' ')`: every maximal run of whitespace becomes
a single space. -/
def normalizeWs (cs : List Char) : List Char := normalizeWsGo cs.length cs

/-- One attempt of the regex `\[OPENUI:\{[^}]+\}\]` at the head of the text:
on success, return the matched text and the text after it.  The body class
`[^}]+` is greedy and cannot cross a `}`, so the match succeeds exactly when
the first `}` after the opening brace is followed by `]` and the body is
non-empty. -/
def matchCandAt : List Char → Option (List Char × List Char)
  | '[' :: 'O' :: 'P' :: 'E' :: 'N' :: 'U' :: 'I' :: ':' :: '{' :: cs1 =>
    match cs1.takeWhile (fun c => c ≠ '}'), cs1.dropWhile (fun c => c ≠ '}') with
    | [], _ => none
    | body, '}' :: ']' :: rest =>
      some ('[' :: 'O' :: 'P' :: 'E' :: 'N' :: 'U' :: 'I' :: ':' :: '{' :: body ++ ['}', ']'], rest)
    | _, _ => none
  | _ => none

/-- The global-regex scan of `normalized.match(/\[OPENUI:\{[^}]+\}\]/g)`,
fueled like `stripAnsiGo`: left to right, resuming after each match. -/
def openuiMatchesGo : Nat → List Char → List (List Char)
  | 0, _ => []
  | _ + 1, [] => []
  | fuel + 1, c :: cs =>
    match matchCandAt (c :: cs) with
    | some (m, rest) => m :: openuiMatchesGo fuel rest
    | none => openuiMatchesGo fuel cs

/-- Embedding of `normalized.match(/\[OPENUI:\{[^}]+\}\]/g)`: all matches, in text order. -/
def openuiMatches (cs : List Char) : List (List Char) := openuiMatchesGo cs.length cs

/-! ## The metrics extractor (`parseMetrics` of `services/sessionManager.ts`) -/

/-- Embedding of `match.slice(8, -1)`: strip the leading `[OPENUI:` (8 characters) and the
trailing `]`, keeping the braces. -/
def candPayload (m : List Char) : String := String.mk ((m.drop 8).dropLast)

/-- The snapshot the extractor builds from an accepted candidate (the field
types mirror what the untyped JS runtime can actually store there). -/
structure ClaudeMetrics where
  model : JVal
  cost : ℚ
  linesAdded : JVal
  linesRemoved : JVal
  contextPercent : JVal
  inputTokens : JVal
  outputTokens : JVal
  state : Option JVal
deriving DecidableEq, Repr

/-- The object literal built from an accepted candidate `json`:
`model: json.m || "Claude"`, `cost: typeof json.c === 'number' ? json.c :
parseFloat(json.c) || 0`, the four counters and the context percentage default
to `0` via `||`, and `state: json.s || undefined`. -/
def buildMetrics (E : JSEnv) (j : JObj) : ClaudeMetrics where
  model := jsOr j.m (.jstr "Claude")
  cost :=
    match j.c with
    | some (.jnum q) => q
    | c =>
      -- parseFloat(json.c) || 0 : both NaN and 0 give 0
      match E.parseFloatOf c with
      | none => 0
      | some q => q
  linesAdded := jsOr j.la (.jnum 0)
  linesRemoved := jsOr j.lr (.jnum 0)
  contextPercent := jsOr j.cp (.jnum 0)
  inputTokens := jsOr j.it (.jnum 0)
  outputTokens := jsOr j.ot (.jnum 0)
  state :=
    match j.s with
    | some v => if v.falsy then none else some v
    | none => none

/-- The loop `for (let i = matches.length - 1; i >= 0; i--)` of `parseMetrics`,
given the matches already reversed (most recent first): parse the payload;
accept when the parse succeeds and `json.m !== undefined || json.c !==
undefined`; otherwise fall through to the next candidate. -/
def tryCandidates (E : JSEnv) : List (List Char) → Option ClaudeMetrics
  | [] => none
  | m :: rest =>
    match E.jparse (candPayload m) with
    | some j =>
      if j.m.isSome || j.c.isSome then some (buildMetrics E j)
      else tryCandidates E rest
    | none => tryCandidates E rest

/-- The `[OPENUI:{...}]` candidates found in a chunk of text, in text order:
strip ANSI codes, collapse whitespace, then run the global candidate regex. -/
def openuiCandidates (data : String) : List (List Char) :=
  openuiMatches (normalizeWs (stripAnsi data.toList))

/-- Embedding of `parseMetrics` of `services/sessionManager.ts`: tolerant extraction of the
embedded `[OPENUI:{...}]` metrics tag. -/
def parseMetrics (E : JSEnv) (data : String) : Option ClaudeMetrics :=
  -- the source binds the candidate list to a variable named `matches`,
  -- which is a reserved word in Lean
  let ms := openuiCandidates data
  if ms.isEmpty then none
  else tryCandidates E ms.reverse

/-! ## Sessions -/

/-- Embedding of `AgentStatus` of `server/types.ts`. -/
inductive Status where
  | starting
  | running
  | waiting_input
  | tool_calling
  | idle
  | disconnected
  | error
deriving DecidableEq, Repr

/-- Modelled from the spec: the out-of-band explicit status signal (the
instrumentation hook's assertion), carried with the time it was received.
The endpoint receiving it and the `statusDetector` module that consumes it
are imported by the excerpted source but are not part of the excerpt. -/
structure ExplicitSignal where
  state : Status
  time : Nat
deriving DecidableEq, Repr

/-- A screen position persisted for the UI. -/
structure Pos where
  x : Int
  y : Int
deriving DecidableEq, Repr

/-- Embedding of `Session` of `server/types.ts`, with the extra fields the fuller
`sessionManager.ts` stores (`worktreePath`, ticket context).  The pty handle
is modelled by its presence (`pty = true` iff a live process binding exists);
the observer set is modelled by the event streams the operations emit (see
`Event`).  `explicitSignal` is modelled from the spec (see `ExplicitSignal`).
Times are in milliseconds. -/
structure Session where
  pty : Bool
  agentId : String
  agentName : String
  command : String
  cwd : String
  gitBranch : Option String
  worktreePath : Option String
  createdAt : String
  outputBuffer : List String
  status : Status
  lastOutputTime : Nat
  lastInputTime : Nat
  recentOutputSize : Int
  customName : Option String
  customColor : Option String
  notes : Option String
  nodeId : String
  isRestored : Bool
  metrics : Option ClaudeMetrics
  position : Option Pos
  ticketId : Option String
  ticketTitle : Option String
  ticketUrl : Option String
  explicitSignal : Option ExplicitSignal
deriving DecidableEq, Repr

/-- Embedding of `scanBufferForMetrics` of `services/sessionManager.ts`: only Claude
sessions are scanned, and only the last 5000 characters of the concatenated
buffer (`buffer.slice(-5000)`). -/
def scanBufferForMetrics (E : JSEnv) (session : Session) : Option ClaudeMetrics :=
  if session.agentId ≠ "claude" then none
  else
    let buffer := String.join session.outputBuffer
    let recentBuffer := buffer.drop (buffer.length - 5000)
    parseMetrics E recentBuffer

/-- Embedding of `MAX_BUFFER_SIZE` of `services/sessionManager.ts`. -/
def MAX_BUFFER_SIZE : Nat := 1000

/-! ## Status classifier (modelled from the spec)

`services/statusDetector.ts` is imported by the excerpted source but is not in
the excerpt, so `detectStatus` is modelled from the spec. -/

/-- Modelled from the spec: the freshness window of an explicit signal.  The
spec leaves the exact value open ("configurable"); no theorem below depends
on it. -/
def EXPLICIT_FRESH_WINDOW : Nat := 30000

/-- Modelled from the spec: the short time-since-last-output threshold under
which a session with a live binding counts as `running`.  The spec leaves the
exact value open; no theorem below depends on it. -/
def RUNNING_WINDOW : Nat := 2000

/-- Modelled from the spec: the heuristic branch of the classifier — "no
process binding ⇒ `disconnected`; process binding present and
recent-output-volume > 0 or time-since-last-output below a short threshold ⇒
`running`; process binding present but no output for longer than an idle
threshold ⇒ `idle`".  The boundary between the running and idle thresholds is
left open by the spec; the model uses a single boundary so the two cases
partition. -/
def heuristicStatus (now : Nat) (s : Session) : Status :=
  if s.pty = false then .disconnected
  else if 0 < s.recentOutputSize ∨ now - s.lastOutputTime < RUNNING_WINDOW then .running
  else .idle

/-- Whether the session holds an explicit signal still inside its freshness
window. -/
def freshExplicit (now : Nat) (s : Session) : Bool :=
  match s.explicitSignal with
  | some sig => decide (now - sig.time < EXPLICIT_FRESH_WINDOW)
  | none => false

/-- Modelled from the spec: `detectStatus` of `services/statusDetector.ts`
(not in the excerpt).  "An explicit signal, when present and recent, takes
precedence and sets the state directly; in its absence the classifier falls
back to the heuristic."  The spec also fixes, as a hard property, that status
never reports `running` when the process binding is `none`, so an explicit
`running` assertion is honoured only while a live binding exists. -/
def detectStatus (now : Nat) (s : Session) : Status :=
  match s.explicitSignal with
  | some sig =>
    if now - sig.time < EXPLICIT_FRESH_WINDOW ∧ (s.pty = true ∨ sig.state ≠ .running)
    then sig.state
    else heuristicStatus now s
  | none => heuristicStatus now s

/-! ## The per-chunk output handler (`ptyProcess.onData` of `createSession`) -/

/-- One event delivered to every attached observer whose handle is ready. -/
inductive Event where
  | output (data : String)
  | statusEv (status : Status) (isRestored : Bool)
  | metricsEv (m : ClaudeMetrics)
deriving DecidableEq, Repr

/-- The buffer update of the output handler: push the chunk, then drop the
oldest entry when the bound is exceeded (`push`; `if length > MAX_BUFFER_SIZE
shift()`). -/
def pushChunk (buf : List String) (data : String) : List String :=
  let buf' := buf ++ [data]
  if MAX_BUFFER_SIZE < buf'.length then buf'.tail else buf'

/-- The `ptyProcess.onData` handler installed by `createSession` of
`services/sessionManager.ts`: append to the bounded history, refresh the
output-timing state, for Claude agents try to parse a metrics tag from the
chunk (keeping the old snapshot on a miss), recompute the status, and emit to
each ready observer the metrics event (when a tag parsed), the output event,
and — only when the resolved status differs from the stored one — a status
event. -/
def onData (E : JSEnv) (now : Nat) (s : Session) (data : String) : Session × List Event :=
  let s1 : Session :=
    { s with
      outputBuffer := pushChunk s.outputBuffer data
      lastOutputTime := now
      recentOutputSize := s.recentOutputSize + (data.length : Int) }
  let ms2 : Session × List Event :=
    if s1.agentId = "claude" then
      match parseMetrics E data with
      | some m => ({ s1 with metrics := some m }, [Event.metricsEv m])
      | none => (s1, [])
    else (s1, [])
  let s2 := ms2.1
  let newStatus := detectStatus now s2
  let statusChanged := newStatus ≠ s2.status
  let s3 := { s2 with status := newStatus }
  let evs := ms2.2 ++ [Event.output data] ++
    (if statusChanged then [Event.statusEv s3.status s3.isRestored] else [])
  (s3, evs)

/-- The body of the 500ms decay interval installed by `createSession` (and
again by the restart route): while the session is registered and has a live
binding, subtract the fixed decrement and floor at zero
(`Math.max(0, recentOutputSize - 50)`); otherwise the interval clears itself
without touching the counter. -/
def decayTick (s : Session) : Session :=
  if s.pty then { s with recentOutputSize := max 0 (s.recentOutputSize - 50) } else s

/-- A scheduler event touching one session: a 500ms decay tick, or an output
chunk arriving at machine time `now`. -/
inductive SessEvent where
  | tick
  | chunk (now : Nat) (data : String)

/-- Apply one scheduler event to a session. -/
def applyEvent (E : JSEnv) (s : Session) : SessEvent → Session
  | .tick => decayTick s
  | .chunk now data => (onData E now s data).1

/-- Apply a sequence of scheduler events to a session. -/
def applyEvents (E : JSEnv) (s : Session) (evs : List SessEvent) : Session :=
  evs.foldl (applyEvent E) s

/-! ## The session registry -/

/-- The in-memory registry (`export const sessions = new Map<string,
Session>()`), modelled as an association list where the most recent `set` for
an id shadows older entries. -/
def Registry := List (String × Session)

/-- Embedding of `sessions.get(id)`. -/
def lookupSid (sid : String) : Registry → Option Session
  | [] => none
  | (k, v) :: rest => if k = sid then some v else lookupSid sid rest

/-- Embedding of `sessions.set(id, s)`. -/
def insertSid (sid : String) (s : Session) (reg : Registry) : Registry :=
  (sid, s) :: reg

/-! ## Persistence types (`server/types.ts`) -/

/-- Embedding of `PersistedNode` of `server/types.ts`: the durable projection of a session.
It stores identity, provenance and annotations plus the UI position — and in
particular no git branch and no output. -/
structure PersistedNode where
  nodeId : String
  sessionId : String
  agentId : String
  agentName : String
  command : String
  cwd : String
  createdAt : String
  customName : Option String
  customColor : Option String
  notes : Option String
  position : Pos
deriving DecidableEq, Repr

/-- Embedding of `PersistedCategory` of `server/types.ts`. -/
structure PersistedCategory where
  id : String
  label : String
  color : String
  position : Pos
  width : Int
  height : Int
deriving DecidableEq, Repr

/-- Embedding of `PersistedState` of `server/types.ts`. -/
structure PersistedState where
  nodes : List PersistedNode
  categories : Option (List PersistedCategory)
deriving DecidableEq, Repr

/-! ## Restore (`restoreSessions` of `services/sessionManager.ts`)

`loadState` and `loadBuffer` live in `services/persistence.ts`, which is not
in the excerpt; the restore path is therefore parameterized by the loaded
state `st`, the per-session on-disk buffer store `loadBuf`, and the live git
resolution `gb` (`getGitBranch`, whose body is an external `git rev-parse`
call; `gb cwd = none` models a null result). -/

/-- Embedding of `gitBranch || undefined`: a null or empty branch is stored as absent. -/
def jsStrOrUndef (v : Option String) : Option String :=
  match v with
  | some b => if b = "" then none else some b
  | none => none

/-- The placeholder `Session` that `restoreSessions` synthesizes for one
persisted node: no process binding, `disconnected`, restoration flag set,
output history reloaded from the buffer store, branch re-resolved live from
the node's working directory. -/
def restoredSession (gb : String → Option String) (loadBuf : String → List String)
    (node : PersistedNode) : Session where
  pty := false
  agentId := node.agentId
  agentName := node.agentName
  command := node.command
  cwd := node.cwd
  gitBranch := jsStrOrUndef (gb node.cwd)
  worktreePath := none
  createdAt := node.createdAt
  outputBuffer := loadBuf node.sessionId
  status := .disconnected
  lastOutputTime := 0
  lastInputTime := 0
  recentOutputSize := 0
  customName := node.customName
  customColor := node.customColor
  notes := node.notes
  nodeId := node.nodeId
  isRestored := true
  metrics := none
  position := none
  ticketId := none
  ticketTitle := none
  ticketUrl := none
  explicitSignal := none

/-- Embedding of `restoreSessions` of `services/sessionManager.ts`, run once at startup:
register a placeholder for every node of the persisted state. -/
def restoreSessions (gb : String → Option String) (loadBuf : String → List String)
    (st : PersistedState) (reg : Registry) : Registry :=
  st.nodes.foldl (fun r node => insertSid node.sessionId (restoredSession gb loadBuf node) r) reg

/-! ## The restart route (`POST /sessions/:sessionId/restart` of `routes/api.ts`) -/

/-- The three responses of the restart route. -/
inductive RestartResponse where
  | notFound
  | alreadyRunning
  | ok
deriving DecidableEq, Repr

/-- The mutation the restart route applies to a session entry after spawning
the replacement pty: bind the new process, clear the restoration flag, reset
the status to `starting` and stamp the output clock. -/
def restartUpdate (now : Nat) (s : Session) : Session :=
  { s with pty := true, isRestored := false, status := .starting, lastOutputTime := now }

/-- Embedding of `POST /sessions/:sessionId/restart` of `routes/api.ts`: 404 on an unknown
id; 400 (`"Session already running"`) when the entry still has a live process
binding, returning before any spawn or mutation; otherwise spawn a fresh pty
and update the entry. -/
def restartHandler (now : Nat) (sid : String) (reg : Registry) : Registry × RestartResponse :=
  match lookupSid sid reg with
  | none => (reg, .notFound)
  | some s =>
    if s.pty then (reg, .alreadyRunning)
    else (insertSid sid (restartUpdate now s) reg, .ok)

/-! ## The state route (`GET /state` of `routes/api.ts`) -/

/-- One element of the `GET /state` response, before the liveness filter. -/
structure StateNode where
  node : PersistedNode
  status : Status
  isAlive : Bool
  isRestored : Option Bool
deriving DecidableEq, Repr

/-- The per-node resolution of `GET /state`: `status: session ?
detectStatus(session) : "disconnected"`, `isAlive: !!session`,
`isRestored: session?.isRestored`. -/
def resolveStateNode (now : Nat) (reg : Registry) (node : PersistedNode) : StateNode :=
  match lookupSid node.sessionId reg with
  | some session =>
    { node := node, status := detectStatus now session, isAlive := true,
      isRestored := some session.isRestored }
  | none => { node := node, status := .disconnected, isAlive := false, isRestored := none }

/-- Embedding of `GET /state` of `routes/api.ts`: resolve every persisted node, then keep
only the live ones (`.filter(n => n.isAlive)`). -/
def stateHandler (now : Nat) (reg : Registry) (st : PersistedState) : List StateNode :=
  (st.nodes.map (resolveStateNode now reg)).filter (fun n => n.isAlive)

/-! ## The list route (`GET /sessions` of `routes/api.ts`) -/

/-- Embedding of `METRICS_CACHE_TTL` of `routes/api.ts` (milliseconds). -/
def METRICS_CACHE_TTL : Nat := 2000

/-- The per-session refresh performed by `GET /sessions` on each listed
session: recompute the status, and — for Claude sessions whose metrics-cache
entry is missing or older than the TTL — rescan the buffer, keeping (session
snapshot and cache entry alike) the previous values when the scan misses.
`cached` is this session's entry of `metricsCache`; the updated entry is
returned alongside the updated session. -/
def listRefresh (E : JSEnv) (now : Nat) (cached : Option (ClaudeMetrics × Nat))
    (s : Session) : Session × Option (ClaudeMetrics × Nat) :=
  let s := { s with status := detectStatus now s }
  if s.agentId = "claude" then
    let stale :=
      match cached with
      | none => true
      | some (_, t) => decide (METRICS_CACHE_TTL < now - t)
    if stale then
      match scanBufferForMetrics E s with
      | some m => ({ s with metrics := some m }, some (m, now))
      | none => (s, cached)
    else (s, cached)
  else (s, cached)

/-! ## Session creation (`createSession` of `services/sessionManager.ts`)

The workspace provisioner (`createWorktree`) is consumed as a capability: its
git side effects are external, so `createSession` is parameterized by the
result the provisioner would report.  The pty spawn and the delayed command /
ticket-prompt writes act on the external process and are not part of the
engine state. -/

/-- The result type of `createWorktree`. -/
structure WorktreeResult where
  success : Bool
  worktreePath : Option String
  error : Option String
deriving DecidableEq, Repr

/-- The parameters of `createSession` (the fuller `sessionManager.ts`
variant). -/
structure CreateParams where
  sessionId : String
  agentId : String
  agentName : String
  command : String
  cwd : String
  nodeId : String
  customName : Option String
  customColor : Option String
  ticketId : Option String
  ticketTitle : Option String
  ticketUrl : Option String
  branchName : Option String
  baseBranch : Option String
  createWorktreeFlag : Bool
  ticketPromptTemplate : Option String
deriving DecidableEq, Repr

/-- JS truthiness of an optional string (`undefined` and `""` are falsy). -/
def jsTruthyStr : Option String → Bool
  | none => false
  | some s => s ≠ ""

/-- Whether `createSession` asks the provisioner for a workspace:
`if (createWorktreeFlag && branchName && baseBranch)`. -/
def worktreeRequested (p : CreateParams) : Bool :=
  p.createWorktreeFlag && jsTruthyStr p.branchName && jsTruthyStr p.baseBranch

/-- The log lines `createSession` can emit while resolving the working
directory. -/
inductive LogEvent where
  | usingWorktree (path : String)
  | provisioningFailed (error : Option String)
deriving DecidableEq, Repr

/-- Embedding of `createSession` of `services/sessionManager.ts`, parameterized by the
provisioner's report `provision` (consulted only when a workspace is
requested), the live git resolution `gb`, the machine time `now` and the
creation timestamp `createdAt`.  On a provisioning failure (or a success
report without a usable path) the original directory is kept, the failure is
logged, and creation proceeds: the pty is spawned, the session is built with
`status = starting` and an empty history, and it is registered.  Returns the
updated registry, the created session and the emitted log lines. -/
def createSession (p : CreateParams) (provision : WorktreeResult)
    (gb : String → Option String) (now : Nat) (createdAt : String)
    (reg : Registry) : Registry × Session × List LogEvent :=
  let fallback : String × Option String × Option String × List LogEvent :=
    (p.cwd, none, none, [LogEvent.provisioningFailed provision.error])
  let resolved : String × Option String × Option String × List LogEvent :=
    if worktreeRequested p then
      if provision.success then
        match provision.worktreePath with
        | some path =>
          if path = "" then fallback
          else (path, some path, p.branchName, [LogEvent.usingWorktree path])
        | none => fallback
      else fallback
    else (p.cwd, none, none, [])
  let workingDir := resolved.1
  let worktreePath := resolved.2.1
  let gitBranch0 := resolved.2.2.1
  let logs := resolved.2.2.2
  -- if (!gitBranch) gitBranch = getGitBranch(workingDir)
  let gitBranch := if jsTruthyStr gitBranch0 then gitBranch0 else gb workingDir
  let session : Session :=
    { pty := true
      agentId := p.agentId
      agentName := p.agentName
      command := p.command
      cwd := workingDir
      gitBranch := jsStrOrUndef gitBranch
      worktreePath := worktreePath
      createdAt := createdAt
      outputBuffer := []
      status := .starting
      lastOutputTime := now
      lastInputTime := 0
      recentOutputSize := 0
      customName := p.customName
      customColor := p.customColor
      notes := none
      nodeId := p.nodeId
      isRestored := false
      metrics := none
      position := none
      ticketId := p.ticketId
      ticketTitle := p.ticketTitle
      ticketUrl := p.ticketUrl
      explicitSignal := none }
  (insertSid p.sessionId session reg, session, logs)

/-! ## Concrete fixtures used to exercise the definitions -/

/-- A JS runtime in which every parse fails (tag payloads never parse). -/
def trivialEnv : JSEnv where
  jparse := fun _ => none
  parseFloatOf := fun _ => none

/-- A JS runtime in which every parse yields an object carrying only `c = 5`. -/
def acceptEnv : JSEnv where
  jparse := fun _ => some ⟨none, some (.jnum 5), none, none, none, none, none, none⟩
  parseFloatOf := fun _ => none

/-- A freshly created Claude session in its initial shape. -/
def baseSession : Session where
  pty := true
  agentId := "claude"
  agentName := "Claude Code"
  command := "claude"
  cwd := "/work"
  gitBranch := none
  worktreePath := none
  createdAt := "2026-01-01"
  outputBuffer := []
  status := .starting
  lastOutputTime := 0
  lastInputTime := 0
  recentOutputSize := 0
  customName := none
  customColor := none
  notes := none
  nodeId := "node-1"
  isRestored := false
  metrics := none
  position := none
  ticketId := none
  ticketTitle := none
  ticketUrl := none
  explicitSignal := none

/-- A persisted node used to exercise the restore path. -/
def sampleNode : PersistedNode where
  nodeId := "node-1"
  sessionId := "session-1"
  agentId := "claude"
  agentName := "Claude Code"
  command := "claude"
  cwd := "/work"
  createdAt := "2026-01-01"
  customName := none
  customColor := none
  notes := none
  position := ⟨0, 0⟩

/-- A second persisted node used to exercise the restore path. -/
def sampleNode2 : PersistedNode where
  nodeId := "node-2"
  sessionId := "session-2"
  agentId := "opencode"
  agentName := "OpenCode"
  command := "opencode"
  cwd := "/work2"
  createdAt := "2026-01-02"
  customName := none
  customColor := none
  notes := none
  position := ⟨1, 1⟩

/-- The last `n` elements of a list, in order. -/
def lastN (n : Nat) (l : List α) : List α := l.drop (l.length - n)

/-- The acceptance test of one `[OPENUI:...]` candidate, as the spec words it:
the payload must parse, and the parse must carry at least one of the two
essential fields (`m` or `c`); an accepted candidate yields the snapshot built
from its payload. -/
def specAccept (E : JSEnv) (m : List Char) : Option ClaudeMetrics :=
  match E.jparse (candPayload m) with
  | some j => if j.m.isSome || j.c.isSome then some (buildMetrics E j) else none
  | none => none

/-- Creation parameters asking for a provisioned workspace, used to exercise
the provisioning fallback. -/
def sampleCreateParams : CreateParams where
  sessionId := "session-9"
  agentId := "claude"
  agentName := "Claude Code"
  command := "claude"
  cwd := "/repo"
  nodeId := "node-9"
  customName := none
  customColor := none
  ticketId := none
  ticketTitle := none
  ticketUrl := none
  branchName := some "feat-x"
  baseBranch := some "main"
  createWorktreeFlag := true
  ticketPromptTemplate := none

/-! # Theorems -/

/-! ## C1 — bounded FIFO output history -/

theorem lastN_length_le (n : Nat) (l : List α) : (lastN n l).length ≤ n := by
  simp only [lastN, List.length_drop]
  omega

theorem lastN_of_le {n : Nat} {l : List α} (h : l.length ≤ n) : lastN n l = l := by
  simp only [lastN]
  have : l.length - n = 0 := by omega
  rw [this, List.drop_zero]

theorem lastN_append_lastN (n : Nat) (x y : List α) :
    lastN n (lastN n x ++ y) = lastN n (x ++ y) := by
  unfold lastN
  rw [← List.drop_append_of_le_length (by omega : x.length - n ≤ x.length)]
  rw [List.drop_drop]
  congr 1
  simp only [List.length_drop, List.length_append]
  omega

theorem pushChunk_eq_lastN {b : List String} (d : String) (h : b.length ≤ 1000) :
    pushChunk b d = lastN 1000 (b ++ [d]) := by
  unfold pushChunk lastN MAX_BUFFER_SIZE
  simp only [List.length_append, List.length_cons, List.length_nil]
  split
  · rename_i hgt
    have hb : b.length + (0 + 1) - 1000 = 1 := by omega
    rw [hb, List.drop_one]
  · rename_i hle
    have hb : b.length + (0 + 1) - 1000 = 0 := by omega
    rw [hb, List.drop_zero]

theorem pushChunk_length_le {b : List String} (d : String) (h : b.length ≤ 1000) :
    (pushChunk b d).length ≤ 1000 := by
  rw [pushChunk_eq_lastN d h]
  exact lastN_length_le _ _

theorem foldl_pushChunk_eq_lastN :
    ∀ (ds : List String) (b : List String), b.length ≤ 1000 →
      List.foldl pushChunk b ds = lastN 1000 (b ++ ds) := by
  intro ds
  induction ds with
  | nil => intro b h; simpa using (lastN_of_le h).symm
  | cons d ds ih =>
    intro b h
    have h1 : (pushChunk b d).length ≤ 1000 := pushChunk_length_le d h
    calc List.foldl pushChunk b (d :: ds) = List.foldl pushChunk (pushChunk b d) ds := rfl
      _ = lastN 1000 (pushChunk b d ++ ds) := ih _ h1
      _ = lastN 1000 (lastN 1000 (b ++ [d]) ++ ds) := by rw [pushChunk_eq_lastN d h]
      _ = lastN 1000 ((b ++ [d]) ++ ds) := lastN_append_lastN _ _ _
      _ = lastN 1000 (b ++ d :: ds) := by rw [List.append_assoc, List.singleton_append]

theorem onData_fst_outputBuffer (E : JSEnv) (now : Nat) (s : Session) (d : String) :
    ((onData E now s d).1).outputBuffer = pushChunk s.outputBuffer d := by
  unfold onData
  dsimp only
  split
  · split <;> rfl
  · rfl

/-- Claim C1: starting from any session whose output history is within the
bound, appending any sequence of output chunks through the pty output handler
keeps the history length at or below 1000, and leaves exactly the most recent
1000 chunks (old history followed by the new chunks) in emission order — the
oldest entries having been discarded first. -/
theorem outputBuffer_bounded_fifo (E : JSEnv) (s : Session) (nds : List (Nat × String))
    (h : s.outputBuffer.length ≤ 1000) :
    (nds.foldl (fun t nd => (onData E nd.1 t nd.2).1) s).outputBuffer
        = lastN 1000 (s.outputBuffer ++ nds.map Prod.snd)
    ∧ (nds.foldl (fun t nd => (onData E nd.1 t nd.2).1) s).outputBuffer.length ≤ 1000 := by
  have key : ∀ (nds : List (Nat × String)) (t : Session),
      (nds.foldl (fun t nd => (onData E nd.1 t nd.2).1) t).outputBuffer
        = List.foldl pushChunk t.outputBuffer (nds.map Prod.snd) := by
    intro nds
    induction nds with
    | nil => intro t; rfl
    | cons nd nds ih =>
      intro t
      simp only [List.foldl_cons, List.map_cons]
      rw [ih, onData_fst_outputBuffer]
  constructor
  · rw [key, foldl_pushChunk_eq_lastN _ _ h]
  · rw [key, foldl_pushChunk_eq_lastN _ _ h]
    exact lastN_length_le _ _

/-- Concrete check of C1: pushing three chunks onto a session whose history
already holds 999 entries keeps the bound and drops the oldest entries. -/
theorem outputBuffer_bounded_fifo_witness :
    (List.replicate 999 "x").length ≤ 1000
    ∧ (([(1, "a"), (2, "b"), (3, "c")] : List (Nat × String)).foldl
        (fun t nd => (onData trivialEnv nd.1 t nd.2).1)
        { baseSession with outputBuffer := List.replicate 999 "x" }).outputBuffer
      = lastN 1000 (List.replicate 999 "x" ++ ["a", "b", "c"]) := by
  have hlen : (List.replicate 999 "x").length ≤ 1000 := by
    rw [List.length_replicate]; omega
  refine ⟨hlen, ?_⟩
  exact (outputBuffer_bounded_fifo trivialEnv
    { baseSession with outputBuffer := List.replicate 999 "x" }
    [(1, "a"), (2, "b"), (3, "c")] hlen).1

/-! ## C9 — decaying recent-output counter -/

theorem onData_fst_recentOutputSize (E : JSEnv) (now : Nat) (s : Session) (d : String) :
    ((onData E now s d).1).recentOutputSize = s.recentOutputSize + (d.length : Int) := by
  unfold onData
  dsimp only
  split
  · split <;> rfl
  · rfl

/-- Claim C9: the decay tick subtracts the fixed decrement 50 and floors the
recent-output counter at zero (touching only sessions that still have a live
binding), every output chunk adds its length, and consequently the counter is
never negative after any sequence of ticks and chunks starting from a
non-negative value. -/
theorem recentOutputSize_never_negative (E : JSEnv) :
    (∀ s : Session, (decayTick s).recentOutputSize =
      if s.pty then max 0 (s.recentOutputSize - 50) else s.recentOutputSize)
    ∧ (∀ (now : Nat) (s : Session) (d : String),
        ((onData E now s d).1).recentOutputSize = s.recentOutputSize + (d.length : Int))
    ∧ (∀ (s : Session) (evs : List SessEvent), 0 ≤ s.recentOutputSize →
        0 ≤ (applyEvents E s evs).recentOutputSize) := by
  refine ⟨?_, fun now s d => onData_fst_recentOutputSize E now s d, ?_⟩
  · intro s
    by_cases h : s.pty <;> simp [decayTick, h]
  · intro s evs
    induction evs generalizing s with
    | nil => intro h; exact h
    | cons ev evs ih =>
      intro h
      have hstep : 0 ≤ (applyEvent E s ev).recentOutputSize := by
        cases ev with
        | tick =>
          simp only [applyEvent, decayTick]
          split
          · simp only [Session.recentOutputSize]
            exact le_max_left 0 _
          · exact h
        | chunk now d =>
          simp only [applyEvent]
          rw [onData_fst_recentOutputSize]
          have : (0 : Int) ≤ (d.length : Int) := Int.natCast_nonneg _
          omega
      exact ih _ hstep

/-- Concrete check of C9: a tick, a chunk, and another tick starting from a
fresh session keep the counter non-negative. -/
theorem recentOutputSize_never_negative_witness :
    0 ≤ (applyEvents trivialEnv baseSession
      [SessEvent.tick, SessEvent.chunk 1 "ab", SessEvent.tick]).recentOutputSize :=
  (recentOutputSize_never_negative trivialEnv).2.2 baseSession
    [SessEvent.tick, SessEvent.chunk 1 "ab", SessEvent.tick] (by decide)

/-! ## C7 — status events only on change -/

theorem onData_snd_structure (E : JSEnv) (now : Nat) (s : Session) (d : String) :
    ∃ mpart : List Event,
      (∀ e ∈ mpart, ∃ m, e = Event.metricsEv m)
      ∧ (onData E now s d).2 = mpart ++ [Event.output d] ++
          (if (onData E now s d).1.status ≠ s.status
           then [Event.statusEv ((onData E now s d).1.status) ((onData E now s d).1.isRestored)]
           else []) := by
  unfold onData
  dsimp only
  split
  · split
    · rename_i m _
      exact ⟨[Event.metricsEv m], by simp, rfl⟩
    · exact ⟨[], by simp, rfl⟩
  · exact ⟨[], by simp, rfl⟩

/-- Claim C7: on every processed output chunk, the observers always receive
the output event; a status event is emitted exactly when the newly resolved
status differs from the previously stored one, and it then carries the new
status and the restoration flag. -/
theorem status_event_iff_status_changed (E : JSEnv) (now : Nat) (s : Session) (d : String) :
    Event.output d ∈ (onData E now s d).2
    ∧ ((∃ st b, Event.statusEv st b ∈ (onData E now s d).2) ↔ (onData E now s d).1.status ≠ s.status)
    ∧ ((onData E now s d).1.status ≠ s.status →
        Event.statusEv ((onData E now s d).1.status) ((onData E now s d).1.isRestored)
          ∈ (onData E now s d).2) := by
  obtain ⟨mpart, hm, heq⟩ := onData_snd_structure E now s d
  rw [heq]
  refine ⟨by simp, ⟨?_, ?_⟩, ?_⟩
  · rintro ⟨st, b, hmem⟩
    simp only [List.mem_append, List.mem_singleton] at hmem
    rcases hmem with (hmem | hmem) | hmem
    · obtain ⟨m, hm'⟩ := hm _ hmem
      exact absurd hm' (by simp)
    · exact absurd hmem (by simp)
    · by_contra hne
      rw [if_neg (not_not_intro hne)] at hmem
      simp at hmem
  · intro hne
    refine ⟨(onData E now s d).1.status, (onData E now s d).1.isRestored, ?_⟩
    rw [if_pos hne]
    simp
  · intro hne
    rw [if_pos hne]
    simp

/-- Concrete check of C7: the first chunk of a fresh session changes the
status from `starting` to the resolved one, and the status event is emitted. -/
theorem status_event_iff_status_changed_witness :
    Event.statusEv ((onData trivialEnv 5 baseSession "x").1.status)
        ((onData trivialEnv 5 baseSession "x").1.isRestored)
      ∈ (onData trivialEnv 5 baseSession "x").2 :=
  (status_event_iff_status_changed trivialEnv 5 baseSession "x").2.2 (by decide)

/-! ## C2 — backward scan of tag candidates -/

theorem tryCandidates_eq_findSome? (E : JSEnv) :
    ∀ l : List (List Char), tryCandidates E l = l.findSome? (specAccept E) := by
  intro l
  induction l with
  | nil => rfl
  | cons m rest ih =>
    simp only [tryCandidates, List.findSome?, specAccept]
    rcases h : E.jparse (candPayload m) with _ | j
    · exact ih
    · by_cases hc : (j.m.isSome || j.c.isSome) = true
      · simp [hc]
      · simp only [if_neg hc]
        exact ih

theorem findSome?_eq_none_iff (f : α → Option β) :
    ∀ l : List α, l.findSome? f = none ↔ ∀ a ∈ l, f a = none := by
  intro l
  induction l with
  | nil => simp
  | cons a l ih =>
    simp only [List.findSome?]
    rcases h : f a with _ | b
    · simp [h, ih]
    · simp [h]

theorem findSome?_eq_some_mem (f : α → Option β) :
    ∀ (l : List α) (b : β), l.findSome? f = some b → ∃ a ∈ l, f a = some b := by
  intro l
  induction l with
  | nil => intro b h; exact absurd h (by simp)
  | cons a l ih =>
    intro b h
    simp only [List.findSome?] at h
    rcases ha : f a with _ | b'
    · rw [ha] at h
      obtain ⟨a', ha', hfa⟩ := ih b h
      exact ⟨a', by simp [ha'], hfa⟩
    · rw [ha] at h
      have hb : b' = b := by simpa using h
      exact ⟨a, by simp, by rw [ha, hb]⟩

/-- Claim C2: the extractor tries the `[OPENUI:{...}]` candidates of the text
from most recent to least recent, accepting a candidate exactly when its
payload parses as JSON with at least one of the essential fields `m`, `c`;
the result is the snapshot built from the first acceptable candidate of that
backward scan, and it is empty exactly when no candidate is acceptable. -/
theorem parseMetrics_backward_scan (E : JSEnv) (data : String) :
    parseMetrics E data = ((openuiCandidates data).reverse).findSome? (specAccept E)
    ∧ (parseMetrics E data = none ↔ ∀ m ∈ openuiCandidates data, specAccept E m = none) := by
  have h1 : parseMetrics E data = ((openuiCandidates data).reverse).findSome? (specAccept E) := by
    unfold parseMetrics
    dsimp only
    by_cases h : (openuiCandidates data).isEmpty
    · rw [if_pos h]
      rw [List.isEmpty_iff] at h
      rw [h]
      rfl
    · rw [if_neg h]
      exact tryCandidates_eq_findSome? E _
  refine ⟨h1, ?_⟩
  rw [h1, findSome?_eq_none_iff]
  constructor
  · intro h m hm
    exact h m (List.mem_reverse.mpr hm)
  · intro h m hm
    exact h m (List.mem_reverse.mp hm)

/-! ## C3 — scan miss keeps the previous snapshot -/

theorem onData_fst_metrics_of_none (E : JSEnv) (now : Nat) (s : Session) (d : String)
    (h : parseMetrics E d = none) : ((onData E now s d).1).metrics = s.metrics := by
  unfold onData
  dsimp only
  split
  · rw [h]
  · rfl

/-- Claim C3: when a metrics scan finds no acceptable candidate, the stored
snapshot is untouched — both on the per-chunk path (`onData` with a chunk the
extractor rejects) and on the list-request path (`GET /sessions` with a buffer
scan that misses, which also leaves the cache entry alone). -/
theorem scan_miss_keeps_snapshot (E : JSEnv) (now : Nat) (cached : Option (ClaudeMetrics × Nat))
    (s : Session) (d : String)
    (h1 : parseMetrics E d = none) (h2 : scanBufferForMetrics E s = none) :
    ((onData E now s d).1).metrics = s.metrics
    ∧ ((listRefresh E now cached s).1).metrics = s.metrics
    ∧ (listRefresh E now cached s).2 = cached := by
  have hscan : scanBufferForMetrics E { s with status := detectStatus now s } =
      scanBufferForMetrics E s := rfl
  refine ⟨onData_fst_metrics_of_none E now s d h1, ?_, ?_⟩ <;>
  · unfold listRefresh
    dsimp only
    split
    · split
      · rw [hscan, h2]
      · rfl
    · rfl

/-- Concrete check of C3: a chunk with no tag and a buffer with no tag leave a
previously stored snapshot in place. -/
theorem scan_miss_keeps_snapshot_witness :
    ((onData trivialEnv 7 { baseSession with
        metrics := some ⟨.jstr "Opus", 1, .jnum 1, .jnum 2, .jnum 3, .jnum 4, .jnum 5, none⟩ }
      "plain output").1).metrics
      = some ⟨.jstr "Opus", 1, .jnum 1, .jnum 2, .jnum 3, .jnum 4, .jnum 5, none⟩ :=
  (scan_miss_keeps_snapshot trivialEnv 7 none
    { baseSession with
      metrics := some ⟨.jstr "Opus", 1, .jnum 1, .jnum 2, .jnum 3, .jnum 4, .jnum 5, none⟩ }
    "plain output" (by decide) (by decide)).1

/-! ## C10 — defaults of an accepted snapshot -/

theorem jsOr_of_falsy {v : Option JVal} {d : JVal} (h : optFalsy v = true) : jsOr v d = d := by
  cases v with
  | none => rfl
  | some x =>
    simp only [optFalsy] at h
    simp [jsOr, h]

theorem buildMetrics_cost_of_falsy (E : JSEnv) (j : JObj)
    (hu : E.parseFloatOf none = none)
    (hn : E.parseFloatOf (some .jnull) = none)
    (hb : ∀ b, E.parseFloatOf (some (.jbool b)) = none)
    (he : E.parseFloatOf (some (.jstr "")) = none)
    (h : optFalsy j.c = true) : (buildMetrics E j).cost = 0 := by
  rcases hc : j.c with _ | v
  · unfold buildMetrics
    dsimp only
    rw [hc]
    dsimp only
    rw [hu]
  · rw [hc] at h
    simp only [optFalsy] at h
    unfold buildMetrics
    dsimp only
    rw [hc]
    cases v with
    | jnull =>
      dsimp only
      rw [hn]
    | jbool b =>
      dsimp only
      rw [hb b]
    | jnum q =>
      dsimp only
      simpa [JVal.falsy] using h
    | jstr s =>
      have hs : s = "" := by simpa [JVal.falsy] using h
      subst hs
      dsimp only
      rw [he]
    | jcomp => exact absurd h (by simp [JVal.falsy])

theorem buildMetrics_cost_of_string (E : JSEnv) (j : JObj) (cs : String)
    (h : j.c = some (.jstr cs)) :
    (buildMetrics E j).cost = (E.parseFloatOf (some (.jstr cs))).getD 0 := by
  unfold buildMetrics
  dsimp only
  rw [h]
  rcases hp : E.parseFloatOf (some (.jstr cs)) with _ | q <;> simp [hp]

theorem buildMetrics_state_of_falsy (E : JSEnv) (j : JObj)
    (h : optFalsy j.s = true) : (buildMetrics E j).state = none := by
  rcases hs : j.s with _ | v
  · unfold buildMetrics
    dsimp only
    rw [hs]
  · rw [hs] at h
    simp only [optFalsy] at h
    unfold buildMetrics
    dsimp only
    rw [hs]
    simp [h]

theorem parseMetrics_some_decomp (E : JSEnv) (data : String) (M : ClaudeMetrics)
    (h : parseMetrics E data = some M) :
    ∃ m ∈ openuiCandidates data, ∃ j : JObj, E.jparse (candPayload m) = some j
      ∧ (j.m.isSome || j.c.isSome) = true ∧ M = buildMetrics E j := by
  unfold parseMetrics at h
  dsimp only at h
  by_cases hempty : (openuiCandidates data).isEmpty
  · rw [if_pos hempty] at h
    exact absurd h (by simp)
  · rw [if_neg hempty, tryCandidates_eq_findSome?] at h
    obtain ⟨m, hm, hacc⟩ := findSome?_eq_some_mem _ _ _ h
    refine ⟨m, List.mem_reverse.mp hm, ?_⟩
    unfold specAccept at hacc
    rcases hj : E.jparse (candPayload m) with _ | j
    · rw [hj] at hacc
      exact absurd hacc (by simp)
    · rw [hj] at hacc
      dsimp only at hacc
      by_cases hc : (j.m.isSome || j.c.isSome) = true
      · rw [if_pos hc] at hacc
        exact ⟨j, rfl, hc, by injection hacc with hacc; exact hacc.symm⟩
      · rw [if_neg hc] at hacc
        exact absurd hacc (by simp)

/-- Claim C10: an accepted snapshot comes from the payload of some candidate
carrying at least one essential field, and missing or falsy payload fields are
replaced by the fixed defaults: model `"Claude"`, cost `0` (string costs going
through float parsing), zero for the line counters, the context percentage and
the token counts, and an absent state. -/
theorem accepted_snapshot_defaults (E : JSEnv) (data : String) (M : ClaudeMetrics)
    (h : parseMetrics E data = some M)
    (hu : E.parseFloatOf none = none)
    (hn : E.parseFloatOf (some .jnull) = none)
    (hb : ∀ b, E.parseFloatOf (some (.jbool b)) = none)
    (he : E.parseFloatOf (some (.jstr "")) = none) :
    ∃ m ∈ openuiCandidates data, ∃ j : JObj, E.jparse (candPayload m) = some j
      ∧ (j.m.isSome || j.c.isSome) = true ∧ M = buildMetrics E j
      ∧ (optFalsy j.m = true → M.model = .jstr "Claude")
      ∧ (optFalsy j.c = true → M.cost = 0)
      ∧ (∀ cs, j.c = some (.jstr cs) → M.cost = (E.parseFloatOf (some (.jstr cs))).getD 0)
      ∧ (optFalsy j.la = true → M.linesAdded = .jnum 0)
      ∧ (optFalsy j.lr = true → M.linesRemoved = .jnum 0)
      ∧ (optFalsy j.cp = true → M.contextPercent = .jnum 0)
      ∧ (optFalsy j.it = true → M.inputTokens = .jnum 0)
      ∧ (optFalsy j.ot = true → M.outputTokens = .jnum 0)
      ∧ (optFalsy j.s = true → M.state = none) := by
  obtain ⟨m, hm, j, hj, hacc, hM⟩ := parseMetrics_some_decomp E data M h
  subst hM
  exact ⟨m, hm, j, hj, hacc, rfl,
    fun hf => jsOr_of_falsy hf,
    fun hf => buildMetrics_cost_of_falsy E j hu hn hb he hf,
    fun cs hcs => buildMetrics_cost_of_string E j cs hcs,
    fun hf => jsOr_of_falsy hf,
    fun hf => jsOr_of_falsy hf,
    fun hf => jsOr_of_falsy hf,
    fun hf => jsOr_of_falsy hf,
    fun hf => jsOr_of_falsy hf,
    fun hf => buildMetrics_state_of_falsy E j hf⟩

/-- Concrete check of C10: a tag whose payload parses to an object carrying
only `c = 5` yields the snapshot with every other field defaulted. -/
theorem accepted_snapshot_defaults_witness :
    ∃ m ∈ openuiCandidates "[OPENUI:\x7bc\x7d]", ∃ j : JObj,
      acceptEnv.jparse (candPayload m) = some j
      ∧ (j.m.isSome || j.c.isSome) = true
      ∧ (⟨.jstr "Claude", 5, .jnum 0, .jnum 0, .jnum 0, .jnum 0, .jnum 0, none⟩ : ClaudeMetrics)
          = buildMetrics acceptEnv j
      ∧ (optFalsy j.m = true →
          (⟨.jstr "Claude", 5, .jnum 0, .jnum 0, .jnum 0, .jnum 0, .jnum 0, none⟩ :
            ClaudeMetrics).model = .jstr "Claude")
      ∧ (optFalsy j.c = true →
          (⟨.jstr "Claude", 5, .jnum 0, .jnum 0, .jnum 0, .jnum 0, .jnum 0, none⟩ :
            ClaudeMetrics).cost = 0)
      ∧ (∀ cs, j.c = some (.jstr cs) →
          (⟨.jstr "Claude", 5, .jnum 0, .jnum 0, .jnum 0, .jnum 0, .jnum 0, none⟩ :
            ClaudeMetrics).cost = (acceptEnv.parseFloatOf (some (.jstr cs))).getD 0)
      ∧ (optFalsy j.la = true →
          (⟨.jstr "Claude", 5, .jnum 0, .jnum 0, .jnum 0, .jnum 0, .jnum 0, none⟩ :
            ClaudeMetrics).linesAdded = .jnum 0)
      ∧ (optFalsy j.lr = true →
          (⟨.jstr "Claude", 5, .jnum 0, .jnum 0, .jnum 0, .jnum 0, .jnum 0, none⟩ :
            ClaudeMetrics).linesRemoved = .jnum 0)
      ∧ (optFalsy j.cp = true →
          (⟨.jstr "Claude", 5, .jnum 0, .jnum 0, .jnum 0, .jnum 0, .jnum 0, none⟩ :
            ClaudeMetrics).contextPercent = .jnum 0)
      ∧ (optFalsy j.it = true →
          (⟨.jstr "Claude", 5, .jnum 0, .jnum 0, .jnum 0, .jnum 0, .jnum 0, none⟩ :
            ClaudeMetrics).inputTokens = .jnum 0)
      ∧ (optFalsy j.ot = true →
          (⟨.jstr "Claude", 5, .jnum 0, .jnum 0, .jnum 0, .jnum 0, .jnum 0, none⟩ :
            ClaudeMetrics).outputTokens = .jnum 0)
      ∧ (optFalsy j.s = true →
          (⟨.jstr "Claude", 5, .jnum 0, .jnum 0, .jnum 0, .jnum 0, .jnum 0, none⟩ :
            ClaudeMetrics).state = none) :=
  accepted_snapshot_defaults acceptEnv "[OPENUI:\x7bc\x7d]"
    ⟨.jstr "Claude", 5, .jnum 0, .jnum 0, .jnum 0, .jnum 0, .jnum 0, none⟩
    (by decide) rfl rfl (fun _ => rfl) rfl

/-! ## C4 — restart only without a live binding -/

theorem lookupSid_insert_same (sid : String) (v : Session) (reg : Registry) :
    lookupSid sid (insertSid sid v reg) = some v := by
  simp [insertSid, lookupSid]

theorem lookupSid_insert_other (sid k : String) (v : Session) (reg : Registry) (h : k ≠ sid) :
    lookupSid sid (insertSid k v reg) = lookupSid sid reg := by
  simp [insertSid, lookupSid, h]

/-- Claim C4: restarting a session that still has a live process binding
fails with `AlreadyRunning` and leaves the registry — hence the pre-existing
session entry and its binding — untouched, with no new process spawned; the
restart route re-spawns (rebinding a fresh pty) exactly when the entry's
binding is `none`. -/
theorem restart_requires_no_binding (now : Nat) (sid : String) (reg : Registry) (s : Session)
    (h : lookupSid sid reg = some s) :
    (s.pty = true → restartHandler now sid reg = (reg, RestartResponse.alreadyRunning))
    ∧ (s.pty = false →
        restartHandler now sid reg = (insertSid sid (restartUpdate now s) reg, RestartResponse.ok)
        ∧ (restartUpdate now s).pty = true
        ∧ lookupSid sid (insertSid sid (restartUpdate now s) reg) = some (restartUpdate now s)) := by
  constructor
  · intro hp
    unfold restartHandler
    rw [h]
    dsimp only
    rw [if_pos hp]
  · intro hp
    refine ⟨?_, rfl, lookupSid_insert_same _ _ _⟩
    unfold restartHandler
    rw [h]
    dsimp only
    rw [if_neg (by rw [hp]; exact Bool.false_ne_true)]

/-- Concrete check of C4: restarting a registered session whose binding is
live returns `AlreadyRunning` with the registry unchanged. -/
theorem restart_requires_no_binding_witness :
    restartHandler 9 "s1" [("s1", baseSession)] =
      ([("s1", baseSession)], RestartResponse.alreadyRunning) :=
  (restart_requires_no_binding 9 "s1" [("s1", baseSession)] baseSession (by decide)).1 (by decide)

/-! ## C5 — no binding is never `running` -/

theorem heuristicStatus_no_pty (now : Nat) (s : Session) (h : s.pty = false) :
    heuristicStatus now s = Status.disconnected := by
  unfold heuristicStatus
  rw [if_pos h]

/-- Claim C5: a session without a live process binding is never classified as
`running`; absent a fresh explicit signal its status is `disconnected`.  In
particular restored placeholders are created without a binding and
`disconnected`, and a persisted node with no live session entry resolves to
`disconnected` in the state route. -/
theorem no_binding_never_running (now : Nat) (s : Session) (h : s.pty = false) :
    (detectStatus now s ≠ Status.running
      ∧ (freshExplicit now s = false → detectStatus now s = Status.disconnected))
    ∧ (∀ (gb : String → Option String) (lb : String → List String) (node : PersistedNode),
        (restoredSession gb lb node).pty = false
        ∧ (restoredSession gb lb node).status = Status.disconnected)
    ∧ (∀ (reg : Registry) (node : PersistedNode), lookupSid node.sessionId reg = none →
        (resolveStateNode now reg node).status = Status.disconnected) := by
  refine ⟨⟨?_, ?_⟩, fun gb lb node => ⟨rfl, rfl⟩, ?_⟩
  · unfold detectStatus
    rcases hs : s.explicitSignal with _ | sig
    · dsimp only
      rw [heuristicStatus_no_pty now s h]
      decide
    · dsimp only
      split
      · rename_i hcond
        rcases hcond.2 with hpty | hne
        · rw [h] at hpty
          exact absurd hpty Bool.false_ne_true
        · exact hne
      · rw [heuristicStatus_no_pty now s h]
        decide
  · intro hfresh
    unfold detectStatus
    rcases hs : s.explicitSignal with _ | sig
    · dsimp only
      exact heuristicStatus_no_pty now s h
    · unfold freshExplicit at hfresh
      rw [hs] at hfresh
      dsimp only at hfresh
      have hlt : ¬(now - sig.time < EXPLICIT_FRESH_WINDOW) := of_decide_eq_false hfresh
      dsimp only
      rw [if_neg (fun hcond => hlt hcond.1)]
      exact heuristicStatus_no_pty now s h
  · intro reg node hnone
    unfold resolveStateNode
    rw [hnone]

/-- Concrete check of C5: a session stripped of its binding is reported
`disconnected` (and in particular not `running`). -/
theorem no_binding_never_running_witness :
    detectStatus 0 { baseSession with pty := false } ≠ Status.running
    ∧ detectStatus 0 { baseSession with pty := false } = Status.disconnected :=
  ⟨(no_binding_never_running 0 { baseSession with pty := false } rfl).1.1,
    (no_binding_never_running 0 { baseSession with pty := false } rfl).1.2 (by decide)⟩

/-! ## C6 — restore synthesizes disconnected placeholders -/

theorem lookup_restore_fold_not_mem (gb : String → Option String)
    (lb : String → List String) :
    ∀ (nodes : List PersistedNode) (reg : Registry) (sid : String),
      sid ∉ nodes.map PersistedNode.sessionId →
      lookupSid sid
          (nodes.foldl (fun r node => insertSid node.sessionId (restoredSession gb lb node) r) reg)
        = lookupSid sid reg := by
  intro nodes
  induction nodes with
  | nil => intro reg sid _; rfl
  | cons n ns ih =>
    intro reg sid h
    simp only [List.map_cons, List.mem_cons] at h
    push_neg at h
    simp only [List.foldl_cons]
    rw [ih _ _ h.2, lookupSid_insert_other _ _ _ _ (Ne.symm h.1)]

theorem lookup_restore_fold_mem (gb : String → Option String) (lb : String → List String) :
    ∀ (nodes : List PersistedNode) (reg : Registry) (node : PersistedNode),
      (nodes.map PersistedNode.sessionId).Nodup → node ∈ nodes →
      lookupSid node.sessionId
          (nodes.foldl (fun r node => insertSid node.sessionId (restoredSession gb lb node) r) reg)
        = some (restoredSession gb lb node) := by
  intro nodes
  induction nodes with
  | nil => intro reg node _ hmem; exact absurd hmem (by simp)
  | cons n ns ih =>
    intro reg node hnodup hmem
    simp only [List.map_cons, List.nodup_cons] at hnodup
    simp only [List.foldl_cons]
    rcases List.mem_cons.mp hmem with heq | hmem'
    · subst heq
      rw [lookup_restore_fold_not_mem gb lb ns _ _ hnodup.1]
      exact lookupSid_insert_same _ _ _
    · exact ih _ node hnodup.2 hmem'

/-- Claim C6: run on an empty registry, `restoreSessions` registers, for every
node of the persisted state (with their distinct session ids), a placeholder
session with no process binding, status `disconnected`, the restoration flag
set, the output history reloaded from the per-session buffer store, and the
git branch re-resolved live from the node's working directory. -/
theorem restore_creates_placeholders (gb : String → Option String)
    (lb : String → List String) (st : PersistedState)
    (hnodup : (st.nodes.map PersistedNode.sessionId).Nodup)
    (node : PersistedNode) (hmem : node ∈ st.nodes) :
    lookupSid node.sessionId (restoreSessions gb lb st [])
        = some (restoredSession gb lb node)
    ∧ (restoredSession gb lb node).pty = false
    ∧ (restoredSession gb lb node).status = Status.disconnected
    ∧ (restoredSession gb lb node).isRestored = true
    ∧ (restoredSession gb lb node).outputBuffer = lb node.sessionId
    ∧ (restoredSession gb lb node).gitBranch = jsStrOrUndef (gb node.cwd) := by
  refine ⟨?_, rfl, rfl, rfl, rfl, rfl⟩
  unfold restoreSessions
  exact lookup_restore_fold_mem gb lb st.nodes [] node hnodup hmem

/-- Concrete check of C6: restoring a state with two nodes yields the two
placeholder sessions, with the expected buffers and branches. -/
theorem restore_creates_placeholders_witness :
    lookupSid "session-1"
        (restoreSessions (fun _ => some "main") (fun sid => ["buffer of " ++ sid])
          ⟨[sampleNode, sampleNode2], none⟩ [])
      = some (restoredSession (fun _ => some "main") (fun sid => ["buffer of " ++ sid]) sampleNode)
    ∧ lookupSid "session-2"
        (restoreSessions (fun _ => some "main") (fun sid => ["buffer of " ++ sid])
          ⟨[sampleNode, sampleNode2], none⟩ [])
      = some (restoredSession (fun _ => some "main") (fun sid => ["buffer of " ++ sid]) sampleNode2) :=
  ⟨(restore_creates_placeholders (fun _ => some "main") (fun sid => ["buffer of " ++ sid])
      ⟨[sampleNode, sampleNode2], none⟩ (by decide) sampleNode (by decide)).1,
    (restore_creates_placeholders (fun _ => some "main") (fun sid => ["buffer of " ++ sid])
      ⟨[sampleNode, sampleNode2], none⟩ (by decide) sampleNode2 (by decide)).1⟩

/-! ## C8 — provisioning failure never aborts creation -/

/-- Claim C8: whatever the provisioner reports, `createSession` builds and
registers the session (a live binding is spawned for it); when a workspace was
requested and the provisioner reports failure, the session falls back to the
originally requested directory and the failure is logged. -/
theorem createSession_provision_fallback (p : CreateParams) (provision : WorktreeResult)
    (gb : String → Option String) (now : Nat) (createdAt : String) (reg : Registry)
    (hreq : worktreeRequested p = true) :
    (lookupSid p.sessionId (createSession p provision gb now createdAt reg).1
        = some (createSession p provision gb now createdAt reg).2.1
      ∧ (createSession p provision gb now createdAt reg).2.1.pty = true)
    ∧ (provision.success = false →
        (createSession p provision gb now createdAt reg).2.1.cwd = p.cwd
        ∧ LogEvent.provisioningFailed provision.error
            ∈ (createSession p provision gb now createdAt reg).2.2) := by
  refine ⟨⟨lookupSid_insert_same _ _ _, rfl⟩, ?_⟩
  intro hfail
  refine ⟨?_, ?_⟩ <;> simp [createSession, hreq, hfail]

/-- Concrete check of C8: a requested workspace whose provisioning fails
leaves the session in the originally requested directory, with the failure
logged. -/
theorem createSession_provision_fallback_witness :
    (createSession sampleCreateParams ⟨false, none, some "boom"⟩ (fun _ => none) 3 "t" []).2.1.cwd
        = "/repo"
    ∧ LogEvent.provisioningFailed (some "boom")
        ∈ (createSession sampleCreateParams ⟨false, none, some "boom"⟩ (fun _ => none) 3 "t" []).2.2 :=
  (createSession_provision_fallback sampleCreateParams ⟨false, none, some "boom"⟩
    (fun _ => none) 3 "t" [] (by decide)).2 (by decide)

end OpenUI
